import Mathlib

/-!
ByteOS: frame bitmap, page directory walk, address-space clone, fork and execve.

A shallow embedding of `src/kernel/memory/paging.c` and `src/kernel/proc/task.c`.
Machine words are natural numbers; pointers are natural-number addresses;
memory is a total map from addresses to words.  Headers that are not part of
the sources (`memory/paging.h`, `memory/kheap.h`, `mm.h`, `proc.h`) are
represented by parameter records.
-/

namespace ByteOS

/-! ## Part 1: `kernel/memory/paging.c` -/

/-- Truncation to `uint32_t`. -/
def u32 (x : Nat) : Nat := x % 2 ^ 32

/-- Single-cell store into a word-addressed memory. -/
def store (m : Nat → Nat) (a v : Nat) : Nat → Nat :=
  fun x => if x = a then v else m x

/-- Macros of `memory/paging.h`, which is not among the sources: the flag bits
and the `PAGE_TABLE_FRAME(x)` encoder are parameters. -/
structure PagingConsts where
  PAGE_TABLE_PRESENT : Nat
  PAGE_TABLE_RW : Nat
  PAGE_TABLE_USER : Nat
  PAGE_TABLE_FRAME : Nat → Nat

/-- Globals of paging.c touched by the frame functions: the bitmap
`uint32_t *frames` (word index to word), `n_frames`, and the memory holding the
32-bit page entries that `uint32_t *page` arguments point into. -/
structure PagingState where
  frames : Nat → Nat
  n_frames : Nat
  mem : Nat → Nat

/-- Embeds `#define INDEX_FROM_BIT(a) (a / (8 * 4))` -/
def INDEX_FROM_BIT (a : Nat) : Nat := a / (8 * 4)

/-- Embeds `#define OFFSET_FROM_BIT(a) (a % (8 * 4))` -/
def OFFSET_FROM_BIT (a : Nat) : Nat := a % (8 * 4)

/-- The value `paging_init` gives `n_frames`: `mem_end_page / 0x1000` with
`mem_end_page = 0x1000000`. -/
def paging_init_n_frames : Nat := 0x1000000 / 0x1000

/-- Embeds `paging_set_frame(frame_addr)`: `frames[idx] |= (0x1 << off)`. -/
def paging_set_frame (s : PagingState) (frame_addr : Nat) : PagingState :=
  let frame := u32 (frame_addr / 0x1000)
  let idx := INDEX_FROM_BIT frame
  let off := OFFSET_FROM_BIT frame
  { s with frames := store s.frames idx (s.frames idx ||| (0x1 <<< off)) }

/-- Embeds `paging_clear_frame(frame_addr)`: `frames[idx] &= ~(0x1 << off)`; the
complement is taken on 32 bits. -/
def paging_clear_frame (s : PagingState) (frame_addr : Nat) : PagingState :=
  let frame := u32 (frame_addr / 0x1000)
  let idx := INDEX_FROM_BIT frame
  let off := OFFSET_FROM_BIT frame
  { s with frames := store s.frames idx (s.frames idx &&& (0xFFFFFFFF ^^^ (0x1 <<< off))) }

/-- Embeds `paging_test_frame(frame_addr)`: `frames[idx] & (0x1 << off)`. -/
def paging_test_frame (s : PagingState) (frame_addr : Nat) : Nat :=
  let frame := u32 (frame_addr / 0x1000)
  let idx := INDEX_FROM_BIT frame
  let off := OFFSET_FROM_BIT frame
  s.frames idx &&& (0x1 <<< off)

/-- How a loop body sequence ends: the enclosing function returns a value, the
loop is left normally, or the loop never completes. -/
inductive Flow where
  | ret (v : Nat)
  | fallthrough
  | diverge

/-- The inner loop of `paging_first_frame`,
`for (j = 0; i < 32; j++) { to_test = 0x1 << j; if (!(frames[i] & to_test)) return i*4*8 + j; }`.
The loop condition is `i < 32` as written in the source.  The first argument
counts the shift amounts that are defined for a 32-bit operand: when it reaches
zero `j` is 32 and the loop cannot proceed. -/
def paging_first_frame_inner (w i : Nat) : Nat → Nat → Flow
  | 0, _ => Flow.diverge
  | fuel + 1, j =>
    if i < 32 then
      let to_test := 0x1 <<< j
      if w &&& to_test = 0 then Flow.ret ((i * 4 * 8) + j)
      else paging_first_frame_inner w i fuel (j + 1)
    else Flow.fallthrough

/-- The outer loop of `paging_first_frame`,
`for (i = 0; i < INDEX_FROM_BIT(n_frames); i++) if (frames[i] != 0xFFFFFFFF) { inner }`.
The first argument is the number of iterations left.  `none` stands for not
returning: `klog_fatal("No free memory!"); abort();` after the loop, or an
inner loop that does not complete. -/
def paging_first_frame_outer (s : PagingState) : Nat → Nat → Option Nat
  | 0, _ => none
  | n + 1, i =>
    if s.frames i ≠ 0xFFFFFFFF then
      match paging_first_frame_inner (s.frames i) i 32 0 with
      | Flow.ret v => some v
      | Flow.fallthrough => paging_first_frame_outer s n (i + 1)
      | Flow.diverge => none
    else paging_first_frame_outer s n (i + 1)

/-- Embeds `paging_first_frame()`. -/
def paging_first_frame (s : PagingState) : Option Nat :=
  paging_first_frame_outer s (INDEX_FROM_BIT s.n_frames) 0

/-- The frame field of a page entry as paging.c reads it:
`*page >> 12 & 0x000FFFFF`. -/
def frame_field (v : Nat) : Nat := (v >>> 12) &&& 0x000FFFFF

/-- Embeds `paging_alloc_frame(page, is_kernel, is_writeable)`; `page` is the address
of the entry in `s.mem`.  `none` stands for `abort()`. -/
def paging_alloc_frame (C : PagingConsts) (s : PagingState) (page : Nat)
    (is_kernel is_writeable : Bool) : Option PagingState :=
  if frame_field (s.mem page) ≠ 0 then some s
  else
    match paging_first_frame s with
    | none => none
    | some idx =>
      if idx = 0xFFFFFFFF then none
      else
        let s1 := paging_set_frame s (u32 (idx * 0x1000))
        let v1 := u32 (s1.mem page ||| C.PAGE_TABLE_PRESENT)
        let v2 := u32 (v1 ||| (if is_writeable then C.PAGE_TABLE_RW else 0))
        let v3 := u32 (v2 ||| (if is_kernel then 0 else C.PAGE_TABLE_USER))
        let v4 := u32 (v3 ||| C.PAGE_TABLE_FRAME idx)
        some { s1 with mem := store s1.mem page v4 }

/-- Embeds `paging_free_frame(uintptr_t page)`.  The last statement,
`page |= PAGE_TABLE_FRAME(0);`, assigns to the parameter `page` (the address),
not to the entry it points to, so it leaves the state alone. -/
def paging_free_frame (C : PagingConsts) (s : PagingState) (page : Nat) : PagingState :=
  let frame := frame_field (s.mem page)
  if frame = 0 then s
  else
    let s1 := paging_clear_frame s frame
    let _page := u32 (page ||| C.PAGE_TABLE_FRAME 0)
    s1

/-- The conventional i386 values of the paging.h macros, used for concrete
evaluation. -/
def stdConsts : PagingConsts where
  PAGE_TABLE_PRESENT := 0x1
  PAGE_TABLE_RW := 0x2
  PAGE_TABLE_USER := 0x4
  PAGE_TABLE_FRAME := fun x => x <<< 12

/-- A bitmap whose first 32 words (frames 0..1023) are full and whose other
words are empty, with no page entries. -/
def lowFullState : PagingState where
  frames := fun i => if i < 32 then 0xFFFFFFFF else 0
  n_frames := paging_init_n_frames
  mem := fun _ => 0

/-- A bitmap with frames 0 and 1 in use and an entry at address 0x5000 that
maps frame 1 (value 0x1007). -/
def twoUsedState : PagingState where
  frames := fun i => if i = 0 then 3 else 0
  n_frames := paging_init_n_frames
  mem := fun a => if a = 0x5000 then 0x1007 else 0

/-- Embeds `page_directory`: `page_table *tables[1024]` (0 is the null pointer) and
`uint32_t tables_physical[1024]`, both as maps from the slot index. -/
structure page_directory where
  tables : Nat → Nat
  tables_physical : Nat → Nat

/-- What `paging_get` reads and writes: the directory, the memory holding the
page tables (32-bit entries by byte address) and the state of the kernel heap
behind `kmalloc_ap`. -/
structure DirState (H : Type) where
  dir : page_directory
  mem : Nat → Nat
  kheap : H

/-- Embeds `memset(p, 0, n)` on the entry memory. -/
def memset_zero (m : Nat → Nat) (p n : Nat) : Nat → Nat :=
  fun x => if p ≤ x ∧ x < p + n then 0 else m x

/-- Embeds `paging_get(address, make, dir)`.  The result is the returned pointer (0 is
null) and the state afterwards.  `kmalloc_ap` (memory/kheap.h, not among the
sources) is a parameter: from the heap state and a size it gives the pointer,
the physical address stored through its second argument, and the new heap
state.  `sizeof_page_table` stands for `sizeof(page_table)`.  An entry pointer
`&t->pages[k]` is `t + 4 * k`. -/
def paging_get {H : Type} (kmalloc_ap : H → Nat → Nat × Nat × H) (sizeof_page_table : Nat)
    (address : Nat) (make : Bool) (s : DirState H) : Nat × DirState H :=
  let address := address / 0x1000
  let table_index := u32 (address / 1024)
  if s.dir.tables table_index ≠ 0 then
    (s.dir.tables table_index + 4 * (address % 1024), s)
  else if make then
    let r := kmalloc_ap s.kheap sizeof_page_table
    let tmp := r.2.1
    let tables := store s.dir.tables table_index r.1
    let mem := memset_zero s.mem (tables table_index) 0x1000
    let tables_physical := store s.dir.tables_physical table_index (u32 (tmp ||| 0x7))
    (tables table_index + 4 * (address % 1024),
      { dir := { tables := tables, tables_physical := tables_physical }, mem := mem, kheap := r.2.2 })
  else (0, s)

/-- A placement allocator in the style of `kmalloc_ap`: the heap state is the
placement address; the block is page-aligned and the physical address equals
the pointer.  Used for concrete evaluation only. -/
def bump_kmalloc_ap (placement_address sz : Nat) : Nat × Nat × Nat :=
  let a := if placement_address % 0x1000 = 0 then placement_address
           else (placement_address / 0x1000 + 1) * 0x1000
  (a, a, a + sz)

/-- An empty directory over a memory of nonzero garbage, heap at 0x100000. -/
def emptyDirState : DirState Nat where
  dir := { tables := fun _ => 0, tables_physical := fun _ => 0 }
  mem := fun _ => 0xDEADBEEF
  kheap := 0x100000

/-- A directory whose slot 1 holds a table at 0x200000. -/
def oneTableDirState : DirState Nat where
  dir := { tables := fun i => if i = 1 then 0x200000 else 0,
           tables_physical := fun i => if i = 1 then 0x200007 else 0 }
  mem := fun _ => 0
  kheap := 0x300000

/-- The state after allocating a frame for the empty entry at 0x6000, starting
from `twoUsedState`. -/
def allocOnceState : PagingState :=
  (paging_alloc_frame stdConsts twoUsedState 0x6000 false true).getD twoUsedState

/-- The state after a second allocation, for the empty entry at 0x7000. -/
def allocTwiceState : PagingState :=
  (paging_alloc_frame stdConsts allocOnceState 0x7000 true false).getD allocOnceState

/-! ## Part 2: `kernel/proc/task.c` -/

/-- Truncation to 64 bits (`uintptr_t`, `uint64_t *`). -/
def u64 (x : Nat) : Nat := x % 2 ^ 64

/-- Store of one entry into page-table memory (table address, entry index). -/
def store_entry (m : Nat → Nat → Nat) (t i v : Nat) : Nat → Nat → Nat :=
  fun t1 i1 => if t1 = t ∧ i1 = i then v else m t1 i1

/-- Page-table memory and physical allocator: `tables t i` is the 64-bit entry
`((struct page_table *)t)->pages[i]`; `pmm_calls` counts the calls of
`pmm_alloc_order` made so far. -/
structure MM where
  tables : Nat → Nat → Nat
  pmm_calls : Nat

/-- Declarations that task.c takes from headers and other translation units
(`mm.h`, `proc.h`, `types.h`, assembly stubs) and that are not among the
sources.  Constants and pure helpers are fields; `cow_copy_pte` is given by
what it stores to `*dest` and what it leaves in `*src`; `pmm_alloc_virt n` is
`page_to_virt` of what the n-th call of `pmm_alloc_order` returns;
`vmm_map_page` and `vmm_destroy_low_mappings` act on the page-table memory;
`pid_bits` is the width of the signed type `pid_t`. -/
structure TaskEnv where
  PAGE_SIZE : Nat
  PAGE_PRESENT : Nat
  PTE_ADDR_MASK : Nat
  PAGE_EXECUTABLE : Nat
  PAGE_USER_ACCESSIBLE : Nat
  PAGE_WRITABLE : Nat
  TASK_KTHREAD : Nat
  TASK_RUNNABLE : Nat
  pid_bits : Nat
  phys_to_virt : Nat → Nat
  virt_to_phys : Nat → Nat
  kern_to_phys : Nat → Nat
  cow_copy_pte : Nat → Nat × Nat
  pmm_alloc_virt : Nat → Nat
  ret_from_ufork : Nat
  ret_from_kfork : Nat
  kernel_p4 : Nat
  vmm_map_page : MM → Nat → Nat → Nat → Nat → MM
  vmm_destroy_low_mappings : MM → Nat → MM

/-- Embeds `#define TASK_KSTACK_ORDER 1` -/
def TASK_KSTACK_ORDER : Nat := 1

/-- Embeds `#define TASK_KSTACK_PAGES (1 << TASK_KSTACK_ORDER)` -/
def TASK_KSTACK_PAGES : Nat := 1 <<< TASK_KSTACK_ORDER

/-- Embeds `#define TASK_KSTACK_SIZE (TASK_KSTACK_PAGES * PAGE_SIZE)` -/
def TASK_KSTACK_SIZE (E : TaskEnv) : Nat := TASK_KSTACK_PAGES * E.PAGE_SIZE

/-- Embeds `struct callee_regs`: the fields task.c reads. -/
structure callee_regs where
  rsp : Nat
  rbx : Nat
  rbp : Nat
  r12 : Nat
  r13 : Nat
  r14 : Nat
  r15 : Nat

/-- Embeds `static const struct callee_regs default_regs = { 0, 0, 0, 0, 0, 0, 0 };` -/
def default_regs : callee_regs :=
  { rsp := 0, rbx := 0, rbp := 0, r12 := 0, r13 := 0, r14 := 0, r15 := 0 }

/-- Embeds `struct mmu_info`: the field task.c uses. -/
structure mmu_info where
  p4 : Nat

/-- Embeds `struct task`: the fields task.c uses; `mmu = none` is the null pointer. -/
structure task where
  flags : Nat
  pid : Int
  rsp_original : Nat
  rsp_top : Nat
  mmu : Option mmu_info
  state : Nat

/-- Kernel state seen by `task_fork`: page-table memory and allocator, the
memory holding kernel stacks (64-bit words by address), the counter
`next_pid`, what `read_rflags()` returns, and the tasks given to `sched_add`. -/
structure Kernel where
  mm : MM
  stack : Nat → Nat
  next_pid : Int
  rflags : Nat
  sched : List task

/-- Embeds `pmm_alloc_order(order, GFP_NONE)` followed by `page_to_virt`: the address
and the allocator after the call. -/
def pmm_alloc (E : TaskEnv) (m : MM) : Nat × MM :=
  (E.pmm_alloc_virt m.pmm_calls, { m with pmm_calls := m.pmm_calls + 1 })

/-- Embeds `copy_kernel_mappings(p4)`: `memcpy(p4, kernel_mmu.p4, PAGE_SIZE)`, that is
the first `PAGE_SIZE / 8` entries of the kernel's top-level table. -/
def copy_kernel_mappings (E : TaskEnv) (m : MM) (p4 : Nat) : MM :=
  { m with tables := fun t i =>
      if t = p4 ∧ i < E.PAGE_SIZE / 8 then m.tables E.kernel_p4 i else m.tables t i }

/-- One iteration of the loop of `clone_pgtab` for index `i`; `recurse` is
`clone_pgtab` one level down.  `none` is a failed
`kassert_dbg(ISALIGN_POW2(pgtab_virt, PAGE_SIZE))` or a failed recursive call. -/
def clone_pgtab_step (E : TaskEnv) (recurse : MM → Nat → Option (MM × Nat))
    (level pgtab rv i : Nat) (m : MM) : Option MM :=
  if m.tables pgtab i &&& E.PAGE_PRESENT ≠ 0 then
    if level = 1 then
      let r := E.cow_copy_pte (m.tables pgtab i)
      let m1 : MM := { m with tables := store_entry m.tables pgtab i r.2 }
      some { m1 with tables := store_entry m1.tables rv i r.1 }
    else
      let flags := m.tables pgtab i &&& (0xFFFFFFFFFFFFFFFF ^^^ E.PTE_ADDR_MASK)
      let pgtab_phys := m.tables pgtab i &&& E.PTE_ADDR_MASK
      let pgtab_virt := E.phys_to_virt pgtab_phys
      if pgtab_virt % E.PAGE_SIZE ≠ 0 then none
      else
        match recurse m pgtab_virt with
        | none => none
        | some (m1, child) =>
          some { m1 with tables := store_entry m1.tables rv i (E.virt_to_phys child ||| flags) }
  else some m

/-- Embeds `for (size_t i = ...; i < end_index; i++) body`: `n` iterations are left
and the next index is `i`. -/
def clone_pgtab_loop (body : Nat → MM → Option MM) : Nat → Nat → MM → Option MM
  | 0, _, m => some m
  | n + 1, i, m =>
    match body i m with
    | none => none
    | some m1 => clone_pgtab_loop body n (i + 1) m1

/-- Embeds `clone_pgtab(pgtab, level)`, by recursion on `level`.  A call with
`level == 0` would recurse with `level - 1` wrapped around and is given no
result; `clone_mmu` passes 4 and the recursion stops at 1. -/
def clone_pgtab (E : TaskEnv) : Nat → MM → Nat → Option (MM × Nat)
  | 0, _, _ => none
  | l + 1, m, pgtab =>
    let a := pmm_alloc E m
    let rv := a.1
    let m1 := if l + 1 = 4 then copy_kernel_mappings E a.2 rv else a.2
    let end_index := if l + 1 = 4 then 1 <<< 7 else 512
    match clone_pgtab_loop (clone_pgtab_step E (fun m2 p => clone_pgtab E l m2 p) (l + 1) pgtab rv)
        end_index 0 m1 with
    | none => none
    | some m2 => some (m2, rv)

/-- Embeds `clone_mmu(pmmu)`: the new `struct mmu_info` with `p4 = clone_pgtab(pmmu->p4, 4)`. -/
def clone_mmu (E : TaskEnv) (m : MM) (pmmu : mmu_info) : Option (MM × mmu_info) :=
  match clone_pgtab E 4 m pmmu.p4 with
  | none => none
  | some (m1, p4) => some (m1, { p4 := p4 })

/-- Embeds `*--stack = v`: the pointer and the stack memory afterwards. -/
def push (st : Nat × (Nat → Nat)) (v : Nat) : Nat × (Nat → Nat) :=
  let sp := u64 (st.1 + 2 ^ 64 - 8)
  (sp, store st.2 sp v)

/-- Embeds `__atomic_fetch_add(&next_pid, 1, __ATOMIC_RELAXED)` stores the sum wrapped
into the signed `pid_t` range. -/
def pid_wrap (E : TaskEnv) (x : Int) : Int :=
  (x + 2 ^ (E.pid_bits - 1)) % 2 ^ E.pid_bits - 2 ^ (E.pid_bits - 1)

/-- Embeds `task_fork(parent, entry, flags, regs)`; `regs = none` is `NULL`.  `none`
as result stands for a failed `kassert_dbg(regs != NULL)`, a null
`parent->mmu` passed to `clone_mmu`, or a failed `clone_mmu`. -/
def task_fork (E : TaskEnv) (parent : task) (entry flags : Nat) (regs : Option callee_regs)
    (k : Kernel) : Option (task × Kernel) :=
  let t0 : task := { flags := 0, pid := 0, rsp_original := 0, rsp_top := 0, mmu := none, state := 0 }
  let t1 := { t0 with flags := parent.flags }
  let t2 := { t1 with pid := k.next_pid }
  let next_pid := pid_wrap E (k.next_pid + 1)
  let a := pmm_alloc E k.mm
  let kstack := u64 (TASK_KSTACK_SIZE E + a.1)
  let t3 := { t2 with rsp_original := kstack }
  let branch : Option (task × MM × (Nat × (Nat → Nat)) × callee_regs) :=
    if flags &&& E.TASK_KTHREAD ≠ 0 then
      let regs1 := match regs with
        | none => default_regs
        | some r => r
      let t4 := { t3 with mmu := none }
      let t5 := { t4 with flags := t4.flags ||| E.TASK_KTHREAD }
      let s1 := push (kstack, k.stack) entry
      let s2 := push s1 E.ret_from_kfork
      some (t5, a.2, s2, regs1)
    else
      match regs with
      | none => none
      | some regs1 =>
        let t4 := { t3 with flags := t3.flags &&& (0xFFFFFFFFFFFFFFFF ^^^ E.TASK_KTHREAD) }
        match parent.mmu with
        | none => none
        | some pmmu =>
          match clone_mmu E a.2 pmmu with
          | none => none
          | some (m1, mmu) =>
            let t5 := { t4 with mmu := some mmu }
            let s1 := push (kstack, k.stack) (0x20 ||| 0x3)
            let s2 := push s1 regs1.rsp
            let s3 := push s2 (k.rflags ||| 0x200)
            let s4 := push s3 (0x28 ||| 0x3)
            let s5 := push s4 entry
            let s6 := push s5 E.ret_from_ufork
            some (t5, m1, s6, regs1)
  match branch with
  | none => none
  | some (t5, m1, s0, regs1) =>
    let s1 := push s0 regs1.rbx
    let s2 := push s1 regs1.rbp
    let s3 := push s2 regs1.r12
    let s4 := push s3 regs1.r13
    let s5 := push s4 regs1.r14
    let s6 := push s5 regs1.r15
    let t6 := { t5 with rsp_top := s6.1 }
    let t7 := { t6 with state := E.TASK_RUNNABLE }
    some (t7, { mm := m1, stack := s6.2, next_pid := next_pid, rflags := k.rflags,
                sched := k.sched ++ [t7] })

/-- Arguments of one `task_fork` call. -/
structure ForkCall where
  parent : task
  entry : Nat
  flags : Nat
  regs : Option callee_regs

/-- A sequence of `task_fork` calls made one after the other, each on the state
the previous one left; the result lists the created tasks in order of
creation. -/
def fork_seq (E : TaskEnv) : List ForkCall → Kernel → Option (List task × Kernel)
  | [], k => some ([], k)
  | c :: cs, k =>
    match task_fork E c.parent c.entry c.flags c.regs k with
    | none => none
    | some (t, k1) =>
      match fork_seq E cs k1 with
      | none => none
      | some (ts, k2) => some (t :: ts, k2)

/-- One `vmm_map_page(mmu, phys, virt, flags)` call. -/
structure MapCall where
  p4 : Nat
  phys : Nat
  virt : Nat
  flags : Nat

/-- What `task_execve` has done when it reaches `ret_from_execve(entry, rsp)`:
the `vmm_map_page` calls in program order, the two arguments of
`ret_from_execve`, the task's address space and the page-table memory. -/
structure ExecOutcome where
  maps : List MapCall
  entry : Nat
  rsp : Nat
  mmu : mmu_info
  mm : MM

/-- Embeds `task_execve(function, argv, flags)` for the current task `self`. -/
def task_execve (E : TaskEnv) (function : Nat) (self : task) (m : MM) : ExecOutcome :=
  let init : mmu_info × MM :=
    match self.mmu with
    | none =>
      let a := pmm_alloc E m
      ({ p4 := a.1 }, copy_kernel_mappings E a.2 a.1)
    | some mmu => (mmu, E.vmm_destroy_low_mappings m mmu.p4)
  let mmu := init.1
  let entry := 0x1000
  let c1 : MapCall := { p4 := mmu.p4, phys := E.kern_to_phys function, virt := entry,
                        flags := E.PAGE_EXECUTABLE ||| E.PAGE_USER_ACCESSIBLE }
  let m1 := E.vmm_map_page init.2 c1.p4 c1.phys c1.virt c1.flags
  let c2 : MapCall := { p4 := mmu.p4, phys := u64 (E.kern_to_phys function + E.PAGE_SIZE),
                        virt := u64 (entry + E.PAGE_SIZE),
                        flags := E.PAGE_EXECUTABLE ||| E.PAGE_USER_ACCESSIBLE }
  let m2 := E.vmm_map_page m1 c2.p4 c2.phys c2.virt c2.flags
  let entry1 := u64 (entry + (function &&& 0xFFF))
  let off0 := 0 * E.PAGE_SIZE
  let a0 := pmm_alloc E m2
  let c3 : MapCall := { p4 := mmu.p4, phys := E.virt_to_phys (u64 (a0.1 + off0)),
                        virt := u64 (0x2000 + off0),
                        flags := E.PAGE_WRITABLE ||| E.PAGE_USER_ACCESSIBLE }
  let m3 := E.vmm_map_page a0.2 c3.p4 c3.phys c3.virt c3.flags
  let off1 := 1 * E.PAGE_SIZE
  let a1 := pmm_alloc E m3
  let c4 : MapCall := { p4 := mmu.p4, phys := E.virt_to_phys (u64 (a1.1 + off1)),
                        virt := u64 (0x2000 + off1),
                        flags := E.PAGE_WRITABLE ||| E.PAGE_USER_ACCESSIBLE }
  let m4 := E.vmm_map_page a1.2 c4.p4 c4.phys c4.virt c4.flags
  { maps := [c1, c2, c3, c4], entry := entry1, rsp := 0x4000, mmu := mmu, mm := m4 }

/-! ### Predicates used to state the clone theorems -/

/-- Sample values for the missing declarations: 4 KiB pages, x86-64 entry
layout, a direct map at 0xFFFF800000000000, a `cow_copy_pte` that clears the
writable bit and sets a marker bit in both entries, an allocator that hands
out successive two-page blocks, 32-bit `pid_t`. -/
def demoEnv : TaskEnv where
  PAGE_SIZE := 0x1000
  PAGE_PRESENT := 0x1
  PTE_ADDR_MASK := 0x000FFFFFFFFFF000
  PAGE_EXECUTABLE := 0x0
  PAGE_USER_ACCESSIBLE := 0x4
  PAGE_WRITABLE := 0x2
  TASK_KTHREAD := 0x1
  TASK_RUNNABLE := 0x1
  pid_bits := 32
  phys_to_virt := fun p => p + 0xFFFF800000000000
  virt_to_phys := fun v => v - 0xFFFF800000000000
  kern_to_phys := fun v => v - 0xFFFFFFFF80000000
  cow_copy_pte := fun v => ((v &&& 0xFFFFFFFFFFFFFFFD) ||| 0x200, (v &&& 0xFFFFFFFFFFFFFFFD) ||| 0x200)
  pmm_alloc_virt := fun n => 0xFFFF800000100000 + 0x2000 * n
  ret_from_ufork := 0xFFFFFFFF80001230
  ret_from_kfork := 0xFFFFFFFF80001260
  kernel_p4 := 0xFFFF800000001000
  vmm_map_page := fun m _ _ _ _ => m
  vmm_destroy_low_mappings := fun m _ => m

/-- Page-table memory with the kernel's top-level table at 0xFFFF800000001000
(entry 128 = 0x2003) and a parent top-level table at 0xFFFF800000005000 whose
entry 0 points to an empty level-3 table and whose entry 128 is the kernel's
0x2003, as `copy_kernel_mappings` leaves it. -/
def demoMM : MM where
  tables := fun t i =>
    if t = 0xFFFF800000001000 ∧ i = 128 then 0x2003
    else if t = 0xFFFF800000005000 ∧ i = 0 then 0x6007
    else if t = 0xFFFF800000005000 ∧ i = 128 then 0x2003
    else 0
  pmm_calls := 0

/-- A user task whose address space is the parent table of `demoMM`. -/
def demoParent : task where
  flags := 0
  pid := 0
  rsp_original := 0
  rsp_top := 0
  mmu := some { p4 := 0xFFFF800000005000 }
  state := 1

/-- Sample saved registers. -/
def demoRegs : callee_regs where
  rsp := 0x7FFFF000
  rbx := 0xB
  rbp := 0x7FFFF800
  r12 := 12
  r13 := 13
  r14 := 14
  r15 := 15

/-- Kernel state at boot: `next_pid = 1`, empty stacks, no task scheduled. -/
def demoKernel : Kernel where
  mm := demoMM
  stack := fun _ => 0
  next_pid := 1
  rflags := 0x2
  sched := []

/-- The result of `clone_mmu` inside `task_fork(demoParent, ...)` on
`demoKernel`, after the kernel stack has been allocated. -/
def demoForkClone : MM × mmu_info :=
  (clone_mmu demoEnv (pmm_alloc demoEnv demoKernel.mm).2 { p4 := 0xFFFF800000005000 }).getD
    (demoMM, { p4 := 0 })

/-- A `task_fork` call that creates a kernel thread. -/
def kthreadCall : ForkCall where
  parent := demoParent
  entry := 0xFFFFFFFF80002000
  flags := 0x1
  regs := none

/-- A `task_fork` call that creates a user task. -/
def userCall : ForkCall where
  parent := demoParent
  entry := 0x401000
  flags := 0
  regs := some demoRegs

/-- The result of three forks (kernel thread, user task, kernel thread) on
`demoKernel`. -/
def demoForks : List task × Kernel :=
  (fork_seq demoEnv [kthreadCall, userCall, kthreadCall] demoKernel).getD ([], demoKernel)

/-! ## Theorems: frame bitmap -/

theorem u32_of_lt {x : Nat} (h : x < 2 ^ 32) : u32 x = x := by
  unfold u32; exact Nat.mod_eq_of_lt h

theorem store_same (m : Nat → Nat) (a v : Nat) : store m a v a = v := by
  simp [store]

theorem store_other (m : Nat → Nat) {a x : Nat} (v : Nat) (h : x ≠ a) : store m a v x = m x := by
  simp [store, h]

/-- Testing a mask bit is testing that bit. -/
theorem and_one_shiftLeft_eq_zero (w j : Nat) : w &&& (1 <<< j) = 0 ↔ w.testBit j = false := by
  rw [Nat.one_shiftLeft]
  constructor
  · intro h
    have := congrArg (fun x => x.testBit j) h
    simpa [Nat.testBit_two_pow_self] using this
  · intro h
    apply Nat.eq_of_testBit_eq
    intro i
    by_cases hij : j = i
    · subst hij; simp [h]
    · simp [Nat.testBit_two_pow_of_ne hij]

theorem paging_first_frame_inner_ret (w i : Nat) :
    ∀ fuel j v, paging_first_frame_inner w i fuel j = Flow.ret v →
      i < 32 ∧ ∃ k, j ≤ k ∧ k < j + fuel ∧ v = i * 4 * 8 + k ∧ w &&& (1 <<< k) = 0 := by
  intro fuel
  induction fuel with
  | zero => intro j v h; simp [paging_first_frame_inner] at h
  | succ n ih =>
    intro j v h
    unfold paging_first_frame_inner at h
    by_cases hi : i < 32
    · simp only [hi, if_true] at h
      by_cases hb : w &&& (1 <<< j) = 0
      · simp only [hb, if_true] at h
        injection h with h
        exact ⟨hi, j, le_refl _, by omega, h.symm, hb⟩
      · simp only [hb, if_false] at h
        obtain ⟨_, k, hk1, hk2, hk3, hk4⟩ := ih (j + 1) v h
        exact ⟨hi, k, by omega, by omega, hk3, hk4⟩
    · simp [hi] at h

theorem paging_first_frame_outer_some (s : PagingState) :
    ∀ n i v, paging_first_frame_outer s n i = some v →
      ∃ a k, a < 32 ∧ k < 32 ∧ v = a * 32 + k ∧ s.frames a &&& (1 <<< k) = 0 := by
  intro n
  induction n with
  | zero => intro i v h; simp [paging_first_frame_outer] at h
  | succ n ih =>
    intro i v h
    unfold paging_first_frame_outer at h
    by_cases hw : s.frames i ≠ 0xFFFFFFFF
    · rw [if_pos hw] at h
      cases hin : paging_first_frame_inner (s.frames i) i 32 0 with
      | ret r =>
        rw [hin] at h
        injection h with h
        obtain ⟨hi, k, _, hk2, hk3, hk4⟩ := paging_first_frame_inner_ret _ _ _ _ _ hin
        exact ⟨i, k, hi, by omega, by omega, hk4⟩
      | fallthrough => rw [hin] at h; exact ih _ _ h
      | diverge => rw [hin] at h; simp at h
    · rw [if_neg hw] at h
      exact ih _ _ h

/-- Whatever `paging_first_frame` returns is below 1024 and its bit is clear. -/
theorem paging_first_frame_some {s : PagingState} {v : Nat} (h : paging_first_frame s = some v) :
    v < 1024 ∧ paging_test_frame s (v * 0x1000) = 0 := by
  obtain ⟨a, k, ha, hk, hv, hbit⟩ := paging_first_frame_outer_some s _ _ _ h
  refine ⟨by omega, ?_⟩
  have h1 : u32 (v * 0x1000 / 0x1000) = v := by
    rw [Nat.mul_div_cancel _ (by norm_num)]; exact u32_of_lt (by omega)
  have h2 : INDEX_FROM_BIT v = a := by unfold INDEX_FROM_BIT; omega
  have h3 : OFFSET_FROM_BIT v = k := by unfold OFFSET_FROM_BIT; omega
  simp only [paging_test_frame, h1, h2, h3]
  exact hbit

theorem testBit_false_of_lt {x n i : Nat} (h : x < 2 ^ n) (hi : n ≤ i) : x.testBit i = false :=
  Nat.testBit_lt_two_pow (lt_of_lt_of_le h (Nat.pow_le_pow_right (by norm_num) hi))

theorem frame_field_testBit (v i : Nat) :
    (frame_field v).testBit i = (v.testBit (12 + i) && decide (i < 20)) := by
  have h : (0x000FFFFF : Nat) = 2 ^ 20 - 1 := by norm_num
  rw [frame_field, h, Nat.testBit_and, Nat.testBit_shiftRight, Nat.testBit_two_pow_sub_one]

theorem u32_testBit (v i : Nat) : (u32 v).testBit i = (decide (i < 32) && v.testBit i) := by
  rw [u32, Nat.testBit_mod_two_pow]

/-- The frame field that `paging_alloc_frame` leaves in an entry whose frame
field was 0, when the flag macros lie in the low twelve bits. -/
theorem frame_field_installed {v P R U idx : Nat} (hv : frame_field v = 0)
    (hP : P < 2 ^ 12) (hR : R < 2 ^ 12) (hU : U < 2 ^ 12) (hidx : idx < 2 ^ 20) :
    frame_field (u32 (u32 (u32 (u32 (v ||| P) ||| R) ||| U) ||| idx <<< 12)) = idx := by
  apply Nat.eq_of_testBit_eq
  intro i
  rw [frame_field_testBit]
  by_cases hi : i < 20
  · have hv' : v.testBit (12 + i) = false := by
      have := frame_field_testBit v i
      rw [hv] at this
      simpa [hi] using this.symm
    have h32 : 12 + i < 32 := by omega
    simp [u32_testBit, h32, hi, hv', testBit_false_of_lt hP (Nat.le_add_right 12 i),
      testBit_false_of_lt hR (Nat.le_add_right 12 i), testBit_false_of_lt hU (Nat.le_add_right 12 i)]
  · simp [hi, testBit_false_of_lt hidx (Nat.le_of_not_lt hi)]

theorem or_mask_and_mask (w k : Nat) : (w ||| (1 <<< k)) &&& (1 <<< k) ≠ 0 := by
  intro h
  rw [and_one_shiftLeft_eq_zero] at h
  simp [Nat.one_shiftLeft, Nat.testBit_two_pow_self] at h

theorem paging_test_set_same (s : PagingState) (f : Nat) :
    paging_test_frame (paging_set_frame s f) f ≠ 0 := by
  simp only [paging_test_frame, paging_set_frame, store_same]
  exact or_mask_and_mask _ _

/-- The way `paging_alloc_frame` changes the state when it has to allocate. -/
theorem paging_alloc_frame_some {C : PagingConsts} {s s1 : PagingState} {p : Nat} {k w : Bool}
    (hp : frame_field (s.mem p) = 0) (h : paging_alloc_frame C s p k w = some s1) :
    ∃ idx, paging_first_frame s = some idx ∧ idx < 1024 ∧
      s1.frames = (paging_set_frame s (idx * 0x1000)).frames ∧
      s1.n_frames = s.n_frames ∧
      (∀ a, a ≠ p → s1.mem a = s.mem a) ∧
      s1.mem p = u32 (u32 (u32 (u32 (s.mem p ||| C.PAGE_TABLE_PRESENT)
        ||| (if w then C.PAGE_TABLE_RW else 0))
        ||| (if k then 0 else C.PAGE_TABLE_USER)) ||| C.PAGE_TABLE_FRAME idx) := by
  unfold paging_alloc_frame at h
  rw [if_neg (by simp [hp])] at h
  cases hf : paging_first_frame s with
  | none => rw [hf] at h; simp at h
  | some idx =>
    rw [hf] at h
    have hlt := (paging_first_frame_some hf).1
    have hne : ¬ idx = 0xFFFFFFFF := by omega
    simp only [hne, if_false] at h
    injection h with h
    have hu : u32 (idx * 0x1000) = idx * 0x1000 := u32_of_lt (by omega)
    rw [hu] at h
    subst h
    refine ⟨idx, rfl, hlt, rfl, rfl, ?_, ?_⟩
    · intro a ha; simp [store, ha, paging_set_frame]
    · simp [store, paging_set_frame]

/-- C2: two successive completed allocations into distinct empty entries install
different frames; each installed frame's bit was clear before its call and is
set after it, and the first entry is not disturbed by the second call. -/
theorem paging_alloc_frame_twice_distinct (C : PagingConsts)
    (hP : C.PAGE_TABLE_PRESENT < 2 ^ 12) (hR : C.PAGE_TABLE_RW < 2 ^ 12)
    (hU : C.PAGE_TABLE_USER < 2 ^ 12) (hF : ∀ x, C.PAGE_TABLE_FRAME x = x <<< 12)
    (s s1 s2 : PagingState) (p q : Nat) (k1 w1 k2 w2 : Bool) (hpq : p ≠ q)
    (hp0 : frame_field (s.mem p) = 0) (hq0 : frame_field (s.mem q) = 0)
    (h1 : paging_alloc_frame C s p k1 w1 = some s1)
    (h2 : paging_alloc_frame C s1 q k2 w2 = some s2) :
    paging_first_frame s = some (frame_field (s1.mem p)) ∧
    paging_first_frame s1 = some (frame_field (s2.mem q)) ∧
    paging_test_frame s (frame_field (s1.mem p) * 0x1000) = 0 ∧
    paging_test_frame s1 (frame_field (s1.mem p) * 0x1000) ≠ 0 ∧
    paging_test_frame s1 (frame_field (s2.mem q) * 0x1000) = 0 ∧
    paging_test_frame s2 (frame_field (s2.mem q) * 0x1000) ≠ 0 ∧
    s2.mem p = s1.mem p ∧
    frame_field (s2.mem q) ≠ frame_field (s2.mem p) := by
  obtain ⟨i1, hf1, hlt1, hfr1, _, hmem1, hv1⟩ := paging_alloc_frame_some hp0 h1
  have hq1 : frame_field (s1.mem q) = 0 := by rw [hmem1 q (Ne.symm hpq)]; exact hq0
  obtain ⟨i2, hf2, hlt2, hfr2, _, hmem2, hv2⟩ := paging_alloc_frame_some hq1 h2
  have e1 : frame_field (s1.mem p) = i1 := by
    rw [hv1, hF]
    exact frame_field_installed hp0 hP (by split <;> first | exact hR | norm_num) (by split <;> first | exact hU | norm_num) (by omega)
  have e2 : frame_field (s2.mem q) = i2 := by
    rw [hv2, hF]
    exact frame_field_installed hq1 hP (by split <;> first | exact hR | norm_num) (by split <;> first | exact hU | norm_num) (by omega)
  have hp2 : s2.mem p = s1.mem p := hmem2 p hpq
  have t1 : paging_test_frame s1 (i1 * 0x1000) ≠ 0 := by
    have := paging_test_set_same s (i1 * 0x1000)
    simpa [paging_test_frame, hfr1] using this
  have t2 : paging_test_frame s2 (i2 * 0x1000) ≠ 0 := by
    have := paging_test_set_same s1 (i2 * 0x1000)
    simpa [paging_test_frame, hfr2] using this
  have c2 := (paging_first_frame_some hf2).2
  rw [hp2, e1, e2]
  refine ⟨hf1, hf2, (paging_first_frame_some hf1).2, t1, c2, t2, rfl, ?_⟩
  intro h
  rw [h] at c2
  exact t1 c2

/-- Witness for C2: from a bitmap with frames 0 and 1 in use, the entries at
0x6000 and 0x7000 receive frames 2 and 3. -/
theorem paging_alloc_frame_twice_distinct_witness :
    frame_field (allocOnceState.mem 0x6000) = 2 ∧
    frame_field (allocTwiceState.mem 0x7000) = 3 ∧
    paging_test_frame twoUsedState (2 * 0x1000) = 0 ∧
    paging_test_frame allocOnceState (2 * 0x1000) = 4 ∧
    (paging_first_frame twoUsedState = some (frame_field (allocOnceState.mem 0x6000)) ∧
     paging_first_frame allocOnceState = some (frame_field (allocTwiceState.mem 0x7000)) ∧
     paging_test_frame twoUsedState (frame_field (allocOnceState.mem 0x6000) * 0x1000) = 0 ∧
     paging_test_frame allocOnceState (frame_field (allocOnceState.mem 0x6000) * 0x1000) ≠ 0 ∧
     paging_test_frame allocOnceState (frame_field (allocTwiceState.mem 0x7000) * 0x1000) = 0 ∧
     paging_test_frame allocTwiceState (frame_field (allocTwiceState.mem 0x7000) * 0x1000) ≠ 0 ∧
     allocTwiceState.mem 0x6000 = allocOnceState.mem 0x6000 ∧
     frame_field (allocTwiceState.mem 0x7000) ≠ frame_field (allocTwiceState.mem 0x6000)) :=
  ⟨by decide, by decide, by decide, by decide,
    paging_alloc_frame_twice_distinct stdConsts (by decide) (by decide) (by decide)
      (fun _ => rfl) twoUsedState allocOnceState allocTwiceState 0x6000 0x7000 false true true false
      (by decide) (by decide) (by decide) rfl rfl⟩

/-- C1 (failing input): with `n_frames = 4096`, frames 0..1023 in use and frame
1024 free, `paging_first_frame` does not return frame 1024: it reaches
`klog_fatal("No free memory!"); abort();`.  The inner loop is guarded by
`i < 32`, so no word of index 32 or more is ever searched. -/
theorem paging_first_frame_skips_high_words :
    lowFullState.n_frames = 4096 ∧
    (∀ k, k < 1024 → paging_test_frame lowFullState (k * 0x1000) ≠ 0) ∧
    paging_test_frame lowFullState (1024 * 0x1000) = 0 ∧
    paging_first_frame lowFullState = none := by
  refine ⟨by decide, ?_, by decide, by decide⟩
  intro k hk
  have h1 : u32 (k * 0x1000 / 0x1000) = k := by
    rw [Nat.mul_div_cancel _ (by norm_num)]; exact u32_of_lt (by omega)
  have h2 : INDEX_FROM_BIT k < 32 := by unfold INDEX_FROM_BIT; omega
  have h3 : OFFSET_FROM_BIT k < 32 := by unfold OFFSET_FROM_BIT; omega
  have h4 : (0xFFFFFFFF : Nat) = 2 ^ 32 - 1 := by norm_num
  simp only [paging_test_frame, h1, lowFullState, h2, if_true]
  rw [Ne, and_one_shiftLeft_eq_zero, h4, Nat.testBit_two_pow_sub_one]
  simp [h3]

/-- C3 (failing input): freeing the entry that maps frame 1 while frames 0 and 1
are in use clears bit 0 and leaves bit 1 set, because `paging_free_frame` passes
the frame number where `paging_clear_frame` expects an address and divides by
0x1000; and allocating for an empty entry and then freeing that entry turns the
bitmap word 3 into 6 instead of restoring it. -/
theorem paging_free_frame_clears_wrong_bit :
    frame_field (twoUsedState.mem 0x5000) = 1 ∧
    paging_test_frame twoUsedState (1 * 0x1000) ≠ 0 ∧
    paging_test_frame twoUsedState (0 * 0x1000) ≠ 0 ∧
    paging_test_frame (paging_free_frame stdConsts twoUsedState 0x5000) (1 * 0x1000) ≠ 0 ∧
    paging_test_frame (paging_free_frame stdConsts twoUsedState 0x5000) (0 * 0x1000) = 0 ∧
    twoUsedState.frames 0 = 3 ∧
    (paging_alloc_frame stdConsts twoUsedState 0x6000 false true).map
      (fun t => (paging_free_frame stdConsts t 0x6000).frames 0) = some 6 := by
  refine ⟨by decide, by decide, by decide, by decide, by decide, by decide, by decide⟩

/-- C4 (failing input): after `paging_free_frame` on an entry that maps frame 1
the entry still holds 0x1007, so its frame field is still 1. -/
theorem paging_free_frame_keeps_entry :
    frame_field (twoUsedState.mem 0x5000) = 1 ∧
    (paging_free_frame stdConsts twoUsedState 0x5000).mem 0x5000 = 0x1007 ∧
    frame_field ((paging_free_frame stdConsts twoUsedState 0x5000).mem 0x5000) = 1 := by
  refine ⟨by decide, by decide, by decide⟩

/-- On no input does `paging_free_frame` write to a page entry. -/
theorem paging_free_frame_mem (C : PagingConsts) (s : PagingState) (p : Nat) :
    (paging_free_frame C s p).mem = s.mem := by
  unfold paging_free_frame
  by_cases h : frame_field (s.mem p) = 0
  · simp [h]
  · simp [h, paging_clear_frame]

/-! ## Theorems: `paging_get` -/

theorem table_index_of_lt {a : Nat} (ha : a < 2 ^ 32) : u32 (a / 0x1000 / 1024) = a / 0x1000 / 1024 :=
  u32_of_lt (by omega)

/-- C5: `paging_get(a, false, dir)` changes nothing (directory, table memory and
kernel heap are as before, so nothing is allocated); it returns null when the
directory slot `(a / 0x1000) / 1024` is empty and the address of entry
`(a / 0x1000) % 1024` of the table in that slot otherwise. -/
theorem paging_get_no_make {H : Type} (kmalloc_ap : H → Nat → Nat × Nat × H) (sz a : Nat)
    (ha : a < 2 ^ 32) (s : DirState H) :
    (paging_get kmalloc_ap sz a false s).2 = s ∧
    (s.dir.tables (a / 0x1000 / 1024) = 0 → (paging_get kmalloc_ap sz a false s).1 = 0) ∧
    (s.dir.tables (a / 0x1000 / 1024) ≠ 0 →
      (paging_get kmalloc_ap sz a false s).1
        = s.dir.tables (a / 0x1000 / 1024) + 4 * (a / 0x1000 % 1024)) := by
  unfold paging_get
  simp only [table_index_of_lt ha]
  by_cases h : s.dir.tables (a / 0x1000 / 1024) = 0
  · simp [h]
  · simp [h]

/-- Witness for C5: address 0x00403000 (slot 1, entry 3) on an empty directory
and on a directory whose slot 1 holds a table at 0x200000. -/
theorem paging_get_no_make_witness :
    ((paging_get bump_kmalloc_ap 0x1000 0x00403000 false emptyDirState).2 = emptyDirState ∧
     (paging_get bump_kmalloc_ap 0x1000 0x00403000 false emptyDirState).1 = 0) ∧
    ((paging_get bump_kmalloc_ap 0x1000 0x00403000 false oneTableDirState).2 = oneTableDirState ∧
     (paging_get bump_kmalloc_ap 0x1000 0x00403000 false oneTableDirState).1 = 0x20000C) :=
  ⟨⟨(paging_get_no_make bump_kmalloc_ap 0x1000 0x00403000 (by decide) emptyDirState).1,
    (paging_get_no_make bump_kmalloc_ap 0x1000 0x00403000 (by decide) emptyDirState).2.1 (by decide)⟩,
   ⟨(paging_get_no_make bump_kmalloc_ap 0x1000 0x00403000 (by decide) oneTableDirState).1,
    (paging_get_no_make bump_kmalloc_ap 0x1000 0x00403000 (by decide) oneTableDirState).2.2
      (by decide)⟩⟩

/-- C6: `paging_get(a, true, dir)` leaves the state alone when the directory
slot is occupied; when the slot is empty it calls `kmalloc_ap` exactly once,
links the new table into that slot only, records its physical address or-ed
with 7, and leaves all 1024 entries of the new table zero.  A second call with
the same address changes nothing more and returns the same entry pointer.  The
allocator is assumed never to return the null pointer. -/
theorem paging_get_make_idempotent {H : Type} (kmalloc_ap : H → Nat → Nat × Nat × H)
    (sz a : Nat) (ha : a < 2 ^ 32) (s : DirState H)
    (hnn : (kmalloc_ap s.kheap sz).1 ≠ 0) :
    (s.dir.tables (a / 0x1000 / 1024) ≠ 0 → (paging_get kmalloc_ap sz a true s).2 = s) ∧
    (s.dir.tables (a / 0x1000 / 1024) = 0 →
      (paging_get kmalloc_ap sz a true s).2.kheap = (kmalloc_ap s.kheap sz).2.2 ∧
      (paging_get kmalloc_ap sz a true s).2.dir.tables (a / 0x1000 / 1024)
        = (kmalloc_ap s.kheap sz).1 ∧
      (∀ j, j ≠ a / 0x1000 / 1024 →
        (paging_get kmalloc_ap sz a true s).2.dir.tables j = s.dir.tables j ∧
        (paging_get kmalloc_ap sz a true s).2.dir.tables_physical j = s.dir.tables_physical j) ∧
      (paging_get kmalloc_ap sz a true s).2.dir.tables_physical (a / 0x1000 / 1024)
        = u32 ((kmalloc_ap s.kheap sz).2.1 ||| 0x7) ∧
      (∀ n, n < 1024 →
        (paging_get kmalloc_ap sz a true s).2.mem ((kmalloc_ap s.kheap sz).1 + 4 * n) = 0) ∧
      (∀ x, (x < (kmalloc_ap s.kheap sz).1 ∨ (kmalloc_ap s.kheap sz).1 + 0x1000 ≤ x) →
        (paging_get kmalloc_ap sz a true s).2.mem x = s.mem x)) ∧
    (paging_get kmalloc_ap sz a true s).1
      = (paging_get kmalloc_ap sz a true s).2.dir.tables (a / 0x1000 / 1024)
        + 4 * (a / 0x1000 % 1024) ∧
    (paging_get kmalloc_ap sz a true (paging_get kmalloc_ap sz a true s).2).2
      = (paging_get kmalloc_ap sz a true s).2 ∧
    (paging_get kmalloc_ap sz a true (paging_get kmalloc_ap sz a true s).2).1
      = (paging_get kmalloc_ap sz a true s).1 := by
  by_cases h : s.dir.tables (a / 0x1000 / 1024) = 0
  · have e : paging_get kmalloc_ap sz a true s =
        ((kmalloc_ap s.kheap sz).1 + 4 * (a / 0x1000 % 1024),
          { dir := { tables := store s.dir.tables (a / 0x1000 / 1024) (kmalloc_ap s.kheap sz).1,
                     tables_physical := store s.dir.tables_physical (a / 0x1000 / 1024)
                       (u32 ((kmalloc_ap s.kheap sz).2.1 ||| 0x7)) },
            mem := memset_zero s.mem (kmalloc_ap s.kheap sz).1 0x1000,
            kheap := (kmalloc_ap s.kheap sz).2.2 }) := by
      unfold paging_get
      simp only [table_index_of_lt ha]
      simp [h, store_same]
    have e2 : ∀ t : DirState H, t.dir.tables (a / 0x1000 / 1024) ≠ 0 →
        paging_get kmalloc_ap sz a true t
          = (t.dir.tables (a / 0x1000 / 1024) + 4 * (a / 0x1000 % 1024), t) := by
      intro t ht
      unfold paging_get
      simp only [table_index_of_lt ha]
      simp [ht]
    rw [e]
    refine ⟨fun hne => absurd h hne, fun _ => ⟨rfl, store_same _ _ _, ?_, store_same _ _ _, ?_, ?_⟩,
      ?_, ?_, ?_⟩
    · intro j hj
      exact ⟨store_other _ _ hj, store_other _ _ hj⟩
    · intro n hn
      simp only [memset_zero]
      rw [if_pos (by omega)]
    · intro x hx
      simp only [memset_zero]
      rw [if_neg (by omega)]
    · simp [store_same]
    · rw [e2 _ (by simpa [store_same] using hnn)]
    · rw [e2 _ (by simpa [store_same] using hnn)]
      simp [store_same]
  · have e2 : ∀ t : DirState H, t.dir.tables (a / 0x1000 / 1024) ≠ 0 →
        paging_get kmalloc_ap sz a true t
          = (t.dir.tables (a / 0x1000 / 1024) + 4 * (a / 0x1000 % 1024), t) := by
      intro t ht
      unfold paging_get
      simp only [table_index_of_lt ha]
      simp [ht]
    rw [e2 s h]
    refine ⟨fun _ => rfl, fun h0 => absurd h0 h, rfl, ?_, ?_⟩
    · rw [e2 s h]
    · rw [e2 s h]

/-- Witness for C6: address 0x00403000 on an empty directory; the table is
allocated at 0x100000 and the second call changes nothing. -/
theorem paging_get_make_idempotent_witness :
    (paging_get bump_kmalloc_ap 0x1000 0x00403000 true emptyDirState).1 = 0x10000C ∧
    emptyDirState.mem 0x10000C = 0xDEADBEEF ∧
    (paging_get bump_kmalloc_ap 0x1000 0x00403000 true emptyDirState).2.mem 0x10000C = 0 ∧
    (paging_get bump_kmalloc_ap 0x1000 0x00403000 true emptyDirState).2.kheap
      = (bump_kmalloc_ap emptyDirState.kheap 0x1000).2.2 ∧
    (paging_get bump_kmalloc_ap 0x1000 0x00403000 true
        (paging_get bump_kmalloc_ap 0x1000 0x00403000 true emptyDirState).2).2
      = (paging_get bump_kmalloc_ap 0x1000 0x00403000 true emptyDirState).2 ∧
    (paging_get bump_kmalloc_ap 0x1000 0x00403000 true
        (paging_get bump_kmalloc_ap 0x1000 0x00403000 true emptyDirState).2).1
      = (paging_get bump_kmalloc_ap 0x1000 0x00403000 true emptyDirState).1 :=
  ⟨by decide, by decide,
   ((paging_get_make_idempotent bump_kmalloc_ap 0x1000 0x00403000 (by decide) emptyDirState
      (by decide)).2.1 (by decide)).2.2.2.2.1 3 (by decide),
   ((paging_get_make_idempotent bump_kmalloc_ap 0x1000 0x00403000 (by decide) emptyDirState
      (by decide)).2.1 (by decide)).1,
   (paging_get_make_idempotent bump_kmalloc_ap 0x1000 0x00403000 (by decide) emptyDirState
      (by decide)).2.2.2.1,
   (paging_get_make_idempotent bump_kmalloc_ap 0x1000 0x00403000 (by decide) emptyDirState
      (by decide)).2.2.2.2⟩

/-! ## Theorems: `clone_pgtab` -/

/-- Every top-level table starts out with the kernel's entries: right after
`copy_kernel_mappings(p4)` the first `PAGE_SIZE / 8` entries of `p4` are those
of `kernel_mmu.p4`.  Both places of task.c that create a top-level table
(`clone_pgtab` at level 4 and `task_execve` for a task without address space)
call it. -/
theorem copy_kernel_mappings_entries (E : TaskEnv) (m : MM) (p4 i : Nat)
    (hi : i < E.PAGE_SIZE / 8) :
    (copy_kernel_mappings E m p4).tables p4 i = m.tables E.kernel_p4 i := by
  simp [copy_kernel_mappings, hi]

theorem push_eq (d c : Nat) (mem : Nat → Nat) (v : Nat) (hc : 8 ≤ c) (hlt : d + c < 2 ^ 64) :
    push (d + c, mem) v = (d + (c - 8), store mem (d + (c - 8)) v) := by
  have : u64 (d + c + 2 ^ 64 - 8) = d + (c - 8) := by
    unfold u64
    have : d + c + 2 ^ 64 - 8 = (d + (c - 8)) + 2 ^ 64 := by omega
    rw [this, Nat.add_mod_right]
    exact Nat.mod_eq_of_lt (by omega)
  simp only [push, this]

/-- C8: a `task_fork` call without `TASK_KTHREAD` in `flags`, with registers
given, a parent that has an address space and a `clone_mmu` that completes,
returns a task whose kernel stack holds below its top `K = rsp_original`, from
`K - 8` downward: 0x23, `regs->rsp`, `read_rflags() | 0x200`, 0x2B, `entry`,
`ret_from_ufork`, `rbx`, `rbp`, `r12`, `r13`, `r14`, `r15`; and whose `rsp_top`
is `K - 96`. -/
theorem task_fork_user_frame (E : TaskEnv) (parent : task) (entry flags : Nat) (r : callee_regs)
    (k : Kernel) (pm cm : mmu_info) (m1 : MM)
    (hflags : flags &&& E.TASK_KTHREAD = 0)
    (hmmu : parent.mmu = some pm)
    (hclone : clone_mmu E (pmm_alloc E k.mm).2 pm = some (m1, cm))
    (hK : 96 ≤ u64 (TASK_KSTACK_SIZE E + E.pmm_alloc_virt k.mm.pmm_calls)) :
    ∃ t k1, task_fork E parent entry flags (some r) k = some (t, k1) ∧
      t.rsp_original = u64 (TASK_KSTACK_SIZE E + E.pmm_alloc_virt k.mm.pmm_calls) ∧
      k1.stack (t.rsp_original - 8) = 0x23 ∧
      k1.stack (t.rsp_original - 16) = r.rsp ∧
      k1.stack (t.rsp_original - 24) = k.rflags ||| 0x200 ∧
      k1.stack (t.rsp_original - 32) = 0x2B ∧
      k1.stack (t.rsp_original - 40) = entry ∧
      k1.stack (t.rsp_original - 48) = E.ret_from_ufork ∧
      k1.stack (t.rsp_original - 56) = r.rbx ∧
      k1.stack (t.rsp_original - 64) = r.rbp ∧
      k1.stack (t.rsp_original - 72) = r.r12 ∧
      k1.stack (t.rsp_original - 80) = r.r13 ∧
      k1.stack (t.rsp_original - 88) = r.r14 ∧
      k1.stack (t.rsp_original - 96) = r.r15 ∧
      t.rsp_top = t.rsp_original - 96 ∧
      (k.rflags ||| 0x200).testBit 9 = true ∧
      t.mmu = some cm ∧
      (∀ x, (x < t.rsp_original - 96 ∨ t.rsp_original ≤ x) → k1.stack x = k.stack x) := by
  obtain ⟨d, hd⟩ : ∃ d, u64 (TASK_KSTACK_SIZE E + E.pmm_alloc_virt k.mm.pmm_calls) = d + 96 :=
    ⟨_, (Nat.sub_add_cancel hK).symm⟩
  have hlt : d + 96 < 2 ^ 64 := by
    rw [← hd]; exact Nat.mod_lt _ (by norm_num)
  have hne : ¬ (flags &&& E.TASK_KTHREAD ≠ 0) := by simp [hflags]
  have hal : (pmm_alloc E k.mm).1 = E.pmm_alloc_virt k.mm.pmm_calls := rfl
  apply Exists.intro
  apply Exists.intro
  refine ⟨?h1, ?h2⟩
  case h1 =>
    unfold task_fork
    simp only [hne, if_false, hmmu, hclone, hal, hd]
    rw [push_eq d 96 _ _ (by norm_num) hlt, push_eq d 88 _ _ (by norm_num) (by omega),
      push_eq d 80 _ _ (by norm_num) (by omega), push_eq d 72 _ _ (by norm_num) (by omega),
      push_eq d 64 _ _ (by norm_num) (by omega), push_eq d 56 _ _ (by norm_num) (by omega),
      push_eq d 48 _ _ (by norm_num) (by omega), push_eq d 40 _ _ (by norm_num) (by omega),
      push_eq d 32 _ _ (by norm_num) (by omega), push_eq d 24 _ _ (by norm_num) (by omega),
      push_eq d 16 _ _ (by norm_num) (by omega), push_eq d 8 _ _ (by norm_num) (by omega)]
  case h2 =>
    have h200 : (k.rflags ||| 0x200).testBit 9 = true := by
      rw [Nat.testBit_or]
      have : (0x200 : Nat).testBit 9 = true := by decide
      simp [this]
    have hs : ∀ c, c ≤ 96 → d + 96 - c = d + (96 - c) := fun c hc => by omega
    refine ⟨?_, ?_, ?_, ?_, ?_, ?_, ?_, ?_, ?_, ?_, ?_, ?_, ?_, ?_, h200, ?_, ?_⟩
    all_goals first
      | rfl
      | exact hd.symm
      | (simp only [hs _ (by norm_num : (8:Nat) ≤ 96), hs _ (by norm_num : (16:Nat) ≤ 96),
           hs _ (by norm_num : (24:Nat) ≤ 96), hs _ (by norm_num : (32:Nat) ≤ 96),
           hs _ (by norm_num : (40:Nat) ≤ 96), hs _ (by norm_num : (48:Nat) ≤ 96),
           hs _ (by norm_num : (56:Nat) ≤ 96), hs _ (by norm_num : (64:Nat) ≤ 96),
           hs _ (by norm_num : (72:Nat) ≤ 96), hs _ (by norm_num : (80:Nat) ≤ 96),
           hs _ (by norm_num : (88:Nat) ≤ 96), hs _ (by norm_num : (96:Nat) ≤ 96)]
         simp [store]
         done)
      | (intro x hx
         have hx1 : x < d ∨ d + 96 ≤ x := by
           rcases hx with h | h
           · left; exact lt_of_lt_of_le h (by show d + 96 - 96 ≤ d; omega)
           · right; exact h
         show store _ _ _ x = _
         simp only [store]
         repeat rw [if_neg (by omega)])

set_option maxRecDepth 1000000 in
/-- Witness for C8: a user fork of the sample parent on the boot state. -/
theorem task_fork_user_frame_witness :
    0 &&& demoEnv.TASK_KTHREAD = 0 ∧
    u64 (TASK_KSTACK_SIZE demoEnv + demoEnv.pmm_alloc_virt demoKernel.mm.pmm_calls)
      = 0xFFFF800000102000 ∧
    ∃ t k1, task_fork demoEnv demoParent 0x401000 0 (some demoRegs) demoKernel = some (t, k1) ∧
      t.rsp_original = u64 (TASK_KSTACK_SIZE demoEnv + demoEnv.pmm_alloc_virt demoKernel.mm.pmm_calls) ∧
      k1.stack (t.rsp_original - 8) = 0x23 ∧
      k1.stack (t.rsp_original - 16) = demoRegs.rsp ∧
      k1.stack (t.rsp_original - 24) = demoKernel.rflags ||| 0x200 ∧
      k1.stack (t.rsp_original - 32) = 0x2B ∧
      k1.stack (t.rsp_original - 40) = 0x401000 ∧
      k1.stack (t.rsp_original - 48) = demoEnv.ret_from_ufork ∧
      k1.stack (t.rsp_original - 56) = demoRegs.rbx ∧
      k1.stack (t.rsp_original - 64) = demoRegs.rbp ∧
      k1.stack (t.rsp_original - 72) = demoRegs.r12 ∧
      k1.stack (t.rsp_original - 80) = demoRegs.r13 ∧
      k1.stack (t.rsp_original - 88) = demoRegs.r14 ∧
      k1.stack (t.rsp_original - 96) = demoRegs.r15 ∧
      t.rsp_top = t.rsp_original - 96 ∧
      (demoKernel.rflags ||| 0x200).testBit 9 = true ∧
      t.mmu = some demoForkClone.2 ∧
      (∀ x, (x < t.rsp_original - 96 ∨ t.rsp_original ≤ x) → k1.stack x = demoKernel.stack x) :=
  ⟨by decide, by decide,
    task_fork_user_frame demoEnv demoParent 0x401000 0 demoRegs demoKernel
      { p4 := 0xFFFF800000005000 } demoForkClone.2 demoForkClone.1 (by decide) rfl (by rfl)
      (by decide)⟩

/-! ## Theorems: process ids -/

/-- A completed `task_fork` gives the new task the old value of `next_pid` and
stores the wrapped successor. -/
theorem task_fork_pid {E : TaskEnv} {parent : task} {entry flags : Nat}
    {regs : Option callee_regs} {k k1 : Kernel} {t : task}
    (h : task_fork E parent entry flags regs k = some (t, k1)) :
    t.pid = k.next_pid ∧ k1.next_pid = pid_wrap E (k.next_pid + 1) := by
  unfold task_fork at h
  by_cases hf : flags &&& E.TASK_KTHREAD ≠ 0
  · simp only [if_pos hf] at h
    injection h with h
    injection h with h1 h2
    subst h1; subst h2
    exact ⟨rfl, rfl⟩
  · simp only [if_neg hf] at h
    cases regs with
    | none => simp at h
    | some r =>
      cases hm : parent.mmu with
      | none => simp [hm] at h
      | some pm =>
        cases hc : clone_mmu E (pmm_alloc E k.mm).2 pm with
        | none => simp [hm, hc] at h
        | some res =>
          obtain ⟨m1, cm⟩ := res
          simp only [hm, hc] at h
          injection h with h
          injection h with h1 h2
          subst h1; subst h2
          exact ⟨rfl, rfl⟩

/-- A kernel-thread `task_fork` always completes. -/
theorem task_fork_kthread_some (E : TaskEnv) (parent : task) (entry flags : Nat)
    (regs : Option callee_regs) (k : Kernel) (hf : flags &&& E.TASK_KTHREAD ≠ 0) :
    ∃ t k1, task_fork E parent entry flags regs k = some (t, k1) := by
  unfold task_fork
  simp only [if_pos hf]
  exact ⟨_, _, rfl⟩

theorem pid_wrap_of_mem (E : TaskEnv) (hw : 1 ≤ E.pid_bits) (x : Int)
    (h1 : -(2 ^ (E.pid_bits - 1)) ≤ x) (h2 : x < 2 ^ (E.pid_bits - 1)) : pid_wrap E x = x := by
  unfold pid_wrap
  have hp : (2 : Int) ^ E.pid_bits = 2 * 2 ^ (E.pid_bits - 1) := by
    have : E.pid_bits = (E.pid_bits - 1) + 1 := by omega
    conv_lhs => rw [this, pow_succ]
    ring
  rw [hp, Int.emod_eq_of_lt (by omega) (by omega)]
  omega

theorem pid_wrap_top (E : TaskEnv) (hw : 1 ≤ E.pid_bits) :
    pid_wrap E (2 ^ (E.pid_bits - 1)) = -(2 ^ (E.pid_bits - 1)) := by
  unfold pid_wrap
  have hp : (2 : Int) ^ E.pid_bits = 2 ^ (E.pid_bits - 1) + 2 ^ (E.pid_bits - 1) := by
    have : E.pid_bits = (E.pid_bits - 1) + 1 := by omega
    conv_lhs => rw [this, pow_succ]
    ring
  rw [hp, Int.emod_self]
  omega

/-- The pids of a completed sequence of forks that does not run past the top of
the `pid_t` range are consecutive from the initial counter value. -/
theorem fork_seq_pids (E : TaskEnv) (hw : 1 ≤ E.pid_bits) :
    ∀ (calls : List ForkCall) (k k1 : Kernel) (ts : List task),
      fork_seq E calls k = some (ts, k1) →
      -(2 ^ (E.pid_bits - 1)) ≤ k.next_pid →
      k.next_pid + calls.length ≤ 2 ^ (E.pid_bits - 1) →
      ts.map task.pid = (List.range calls.length).map (fun (j : Nat) => k.next_pid + (j : Int)) ∧
      (calls ≠ [] → k1.next_pid = pid_wrap E (k.next_pid + calls.length)) := by
  intro calls
  induction calls with
  | nil =>
    intro k k1 ts h _ _
    simp only [fork_seq] at h
    injection h with h
    injection h with h1 h2
    subst h1
    simp
  | cons c cs ih =>
    intro k k1 ts h hlo hhi
    unfold fork_seq at h
    cases hf : task_fork E c.parent c.entry c.flags c.regs k with
    | none => simp [hf] at h
    | some res =>
      obtain ⟨t, km⟩ := res
      simp only [hf] at h
      cases hr : fork_seq E cs km with
      | none => simp [hr] at h
      | some res2 =>
        obtain ⟨ts2, k2⟩ := res2
        simp only [hr] at h
        injection h with h
        injection h with h1 h2
        subst h1; subst h2
        obtain ⟨hp, hn⟩ := task_fork_pid hf
        have hlen : ((c :: cs).length : Int) = (cs.length : Int) + 1 := by simp
        rw [hlen] at hhi
        by_cases hcs : cs = []
        · subst hcs
          simp only [fork_seq] at hr
          injection hr with hr
          injection hr with h1 h2
          subst h1; subst h2
          refine ⟨by simp [hp, List.range_succ], fun _ => ?_⟩
          rw [hn]; simp
        · have hpos : 0 < cs.length := List.length_pos.mpr hcs
          have hkm : km.next_pid = k.next_pid + 1 := by
            rw [hn]
            exact pid_wrap_of_mem E hw _ (by omega) (by omega)
          obtain ⟨ih1, ih2⟩ := ih km k2 ts2 hr (by omega) (by omega)
          refine ⟨?_, fun _ => ?_⟩
          · rw [List.map_cons, ih1, hp, hkm, List.length_cons, List.range_succ_eq_map,
              List.map_cons, List.map_map]
            simp only [Nat.cast_zero, add_zero, List.cons.injEq, true_and]
            apply List.map_congr_left
            intro j _
            simp only [Function.comp, Nat.succ_eq_add_one, Nat.cast_add, Nat.cast_one]
            ring
          · rw [ih2 hcs, hkm, hlen]
            congr 1
            ring

theorem fork_seq_length (E : TaskEnv) :
    ∀ (calls : List ForkCall) (k k1 : Kernel) (ts : List task),
      fork_seq E calls k = some (ts, k1) → ts.length = calls.length := by
  intro calls
  induction calls with
  | nil =>
    intro k k1 ts h
    simp only [fork_seq] at h
    injection h with h
    injection h with h1 h2
    subst h1; rfl
  | cons c cs ih =>
    intro k k1 ts h
    unfold fork_seq at h
    cases hf : task_fork E c.parent c.entry c.flags c.regs k with
    | none => simp [hf] at h
    | some res =>
      obtain ⟨t, km⟩ := res
      simp only [hf] at h
      cases hr : fork_seq E cs km with
      | none => simp [hr] at h
      | some res2 =>
        obtain ⟨ts2, k2⟩ := res2
        simp only [hr] at h
        injection h with h
        injection h with h1 h2
        subst h1
        simp [ih km k2 ts2 hr]

theorem pids_from_one_sorted (n : Nat) :
    ((List.range n).map (fun (j : Nat) => (1 : Int) + (j : Int))).Pairwise (· < ·) := by
  rw [List.pairwise_map]
  refine List.Pairwise.imp ?_ (List.pairwise_lt_range n)
  intro a b hab
  have : (a : Int) < (b : Int) := by exact_mod_cast hab
  omega

/-- C9 (amended): in a completed sequence of fewer than `2 ^ (pid_bits - 1)`
`task_fork` calls that starts with `next_pid = 1`, the pids are 1, 2, 3, … in
order of creation: each is strictly greater than every earlier one and none
repeats. -/
theorem fork_seq_pids_increasing (E : TaskEnv) (calls : List ForkCall) (k k1 : Kernel)
    (ts : List task) (hk : k.next_pid = 1) (hlen : calls.length < 2 ^ (E.pid_bits - 1))
    (h : fork_seq E calls k = some (ts, k1)) :
    ts.length = calls.length ∧
    ts.map task.pid = (List.range calls.length).map (fun (j : Nat) => (1 : Int) + (j : Int)) ∧
    (ts.map task.pid).Pairwise (· < ·) ∧
    (ts.map task.pid).Nodup := by
  have hl := fork_seq_length E calls k k1 ts h
  by_cases hw : 1 ≤ E.pid_bits
  · have hcast : (calls.length : Int) < 2 ^ (E.pid_bits - 1) := by exact_mod_cast hlen
    have hpos : (0 : Int) < 2 ^ (E.pid_bits - 1) := by positivity
    have hp := (fork_seq_pids E hw calls k k1 ts h (by rw [hk]; omega) (by rw [hk]; omega)).1
    rw [hk] at hp
    refine ⟨hl, hp, ?_, ?_⟩
    · rw [hp]; exact pids_from_one_sorted _
    · rw [hp]
      exact (pids_from_one_sorted _).imp (fun h => ne_of_lt h)
  · have h0 : E.pid_bits - 1 = 0 := by omega
    rw [h0] at hlen
    have hc : calls = [] := List.length_eq_zero.mp (by omega)
    subst hc
    have : ts = [] := List.length_eq_zero.mp hl
    subst this
    simp

set_option maxRecDepth 1000000 in
/-- Witness for C9 (amended): three forks from the boot state get pids 1, 2, 3. -/
theorem fork_seq_pids_increasing_witness :
    fork_seq demoEnv [kthreadCall, userCall, kthreadCall] demoKernel = some demoForks ∧
    demoForks.1.map task.pid = [1, 2, 3] ∧
    (demoForks.1.length = [kthreadCall, userCall, kthreadCall].length ∧
     demoForks.1.map task.pid
       = (List.range [kthreadCall, userCall, kthreadCall].length).map
           (fun (j : Nat) => (1 : Int) + (j : Int)) ∧
     (demoForks.1.map task.pid).Pairwise (· < ·) ∧
     (demoForks.1.map task.pid).Nodup) :=
  ⟨by rfl, by decide,
    fork_seq_pids_increasing demoEnv [kthreadCall, userCall, kthreadCall] demoKernel demoForks.2
      demoForks.1 rfl (by decide) (by rfl)⟩

theorem fork_seq_append (E : TaskEnv) :
    ∀ (xs ys : List ForkCall) (k k1 k2 : Kernel) (ts1 ts2 : List task),
      fork_seq E xs k = some (ts1, k1) → fork_seq E ys k1 = some (ts2, k2) →
      fork_seq E (xs ++ ys) k = some (ts1 ++ ts2, k2) := by
  intro xs
  induction xs with
  | nil =>
    intro ys k k1 k2 ts1 ts2 h1 h2
    simp only [fork_seq] at h1
    injection h1 with h1
    injection h1 with ha hb
    subst ha; subst hb
    simpa using h2
  | cons c cs ih =>
    intro ys k k1 k2 ts1 ts2 h1 h2
    unfold fork_seq at h1
    cases hf : task_fork E c.parent c.entry c.flags c.regs k with
    | none => simp [hf] at h1
    | some res =>
      obtain ⟨t, km⟩ := res
      simp only [hf] at h1
      cases hr : fork_seq E cs km with
      | none => simp [hr] at h1
      | some res2 =>
        obtain ⟨ts3, k3⟩ := res2
        simp only [hr] at h1
        injection h1 with h1
        injection h1 with ha hb
        subst ha; subst hb
        have := ih ys km _ k2 ts3 ts2 hr h2
        show fork_seq E (c :: (cs ++ ys)) k = _
        unfold fork_seq
        simp only [hf, this, List.cons_append]

theorem fork_seq_kthread_some (E : TaskEnv) (c : ForkCall) (hc : c.flags &&& E.TASK_KTHREAD ≠ 0) :
    ∀ (n : Nat) (k : Kernel), ∃ ts k1, fork_seq E (List.replicate n c) k = some (ts, k1) := by
  intro n
  induction n with
  | zero => intro k; exact ⟨[], k, rfl⟩
  | succ n ih =>
    intro k
    obtain ⟨t, km, h1⟩ := task_fork_kthread_some E c.parent c.entry c.flags c.regs k hc
    obtain ⟨ts, k1, h2⟩ := ih km
    refine ⟨t :: ts, k1, ?_⟩
    show fork_seq E (c :: List.replicate n c) k = _
    unfold fork_seq
    simp only [h1, h2]

/-- After `2 ^ (pid_bits - 1) - 1` forks from `next_pid = 1` the counter has
wrapped to the bottom of the `pid_t` range, and the next task gets that
value. -/
theorem fork_seq_wraps (E : TaskEnv) (hw : 2 ≤ E.pid_bits) (c : ForkCall)
    (hc : c.flags &&& E.TASK_KTHREAD ≠ 0) (k : Kernel) (hk : k.next_pid = 1) :
    ∃ ts k1, fork_seq E (List.replicate (2 ^ (E.pid_bits - 1)) c) k = some (ts, k1) ∧
      (ts.map task.pid).head? = some 1 ∧
      (ts.map task.pid).getLast? = some (-(2 ^ (E.pid_bits - 1))) ∧
      ¬ (ts.map task.pid).Pairwise (· < ·) := by
  obtain ⟨n, hn⟩ : ∃ n, 2 ^ (E.pid_bits - 1) = n + 2 := by
    have : 2 ^ 1 ≤ 2 ^ (E.pid_bits - 1) := Nat.pow_le_pow_right (by norm_num) (by omega)
    exact ⟨2 ^ (E.pid_bits - 1) - 2, by omega⟩
  have hnI : (2 : Int) ^ (E.pid_bits - 1) = (n : Int) + 2 := by exact_mod_cast hn
  obtain ⟨ts1, km, h1⟩ := fork_seq_kthread_some E c hc (n + 1) k
  obtain ⟨t, k2, h2⟩ := task_fork_kthread_some E c.parent c.entry c.flags c.regs km hc
  have h2' : fork_seq E [c] km = some ([t], k2) := by
    unfold fork_seq
    simp only [h2, fork_seq]
  have hall := fork_seq_append E _ _ k km k2 ts1 [t] h1 h2'
  have hrep : List.replicate (n + 1) c ++ [c] = List.replicate (2 ^ (E.pid_bits - 1)) c := by
    rw [hn, show n + 2 = (n + 1) + 1 from rfl, List.replicate_succ' (n + 1)]
  rw [hrep] at hall
  have hlen1 : (List.replicate (n + 1) c).length = n + 1 := List.length_replicate _ _
  obtain ⟨hp, hnext⟩ := fork_seq_pids E (by omega) _ k km ts1 h1 (by rw [hk]; omega)
    (by rw [hk, hlen1, hnI]; push_cast; omega)
  rw [hlen1, hk] at hp
  have hkm : km.next_pid = -(2 ^ (E.pid_bits - 1)) := by
    rw [hnext (by simp [List.replicate_succ]), hk, hlen1, ← pid_wrap_top E (by omega), hnI]
    congr 1
    push_cast
    ring
  have htp : t.pid = -(2 ^ (E.pid_bits - 1)) := by rw [(task_fork_pid h2).1, hkm]
  have hmap : (ts1 ++ [t]).map task.pid
      = ((1 : Int) :: (List.range n).map (fun (j : Nat) => (1 : Int) + ((j + 1 : Nat) : Int)))
        ++ [-(2 ^ (E.pid_bits - 1))] := by
    rw [List.map_append, hp, List.range_succ_eq_map, List.map_cons, List.map_map, List.map_singleton,
      htp]
    simp [Function.comp]
  refine ⟨ts1 ++ [t], k2, hall, ?_, ?_, ?_⟩
  · rw [hmap]; rfl
  · rw [hmap, List.getLast?_append]
    rfl
  · rw [hmap]
    intro hpw
    have hx := (List.pairwise_append.mp hpw).2.2 1 (List.mem_cons_self _ _)
      (-(2 ^ (E.pid_bits - 1))) (List.mem_singleton.mpr rfl)
    omega

/-- C9 (counterexample): with a 32-bit `pid_t`, `2 ^ 31` kernel-thread forks
from `next_pid = 1` all complete; the first task has pid 1 and the last one has
pid `-2147483648`, so the pids are not increasing. -/
theorem fork_seq_pid_wraps_32 :
    demoKernel.next_pid = 1 ∧
    ∃ ts k1, fork_seq demoEnv (List.replicate (2 ^ 31) kthreadCall) demoKernel = some (ts, k1) ∧
      (ts.map task.pid).head? = some 1 ∧
      (ts.map task.pid).getLast? = some (-2147483648) ∧
      ¬ (ts.map task.pid).Pairwise (· < ·) :=
  ⟨rfl, fork_seq_wraps demoEnv (by decide) kthreadCall (by decide) demoKernel rfl⟩

/-! ## Theorems: `task_execve` -/

/-- C10 (failing input): with 4 KiB pages, for every `function`, task and
memory, the four `vmm_map_page` calls of `task_execve` target the virtual pages
0x1000, 0x2000, 0x2000, 0x3000 in this order: the second code page and the
first stack/data page are the same virtual page, so the four pages are not
pairwise distinct. -/
theorem task_execve_maps_overlap (E : TaskEnv) (function : Nat) (self : task) (m : MM) :
    (task_execve { E with PAGE_SIZE := 0x1000 } function self m).maps.map MapCall.virt
      = [0x1000, 0x2000, 0x2000, 0x3000] ∧
    ¬ ((task_execve { E with PAGE_SIZE := 0x1000 } function self m).maps.map MapCall.virt).Nodup ∧
    (task_execve { E with PAGE_SIZE := 0x1000 } function self m).maps.map MapCall.flags
      = [E.PAGE_EXECUTABLE ||| E.PAGE_USER_ACCESSIBLE, E.PAGE_EXECUTABLE ||| E.PAGE_USER_ACCESSIBLE,
         E.PAGE_WRITABLE ||| E.PAGE_USER_ACCESSIBLE, E.PAGE_WRITABLE ||| E.PAGE_USER_ACCESSIBLE] := by
  have hv : (task_execve { E with PAGE_SIZE := 0x1000 } function self m).maps.map MapCall.virt
      = [0x1000, 0x2000, 0x2000, 0x3000] := by
    simp [task_execve, u64]
  refine ⟨hv, ?_, ?_⟩
  · rw [hv]; decide
  · simp [task_execve]

end ByteOS
